import Mathlib

/-!
Verification of the ffmpeg video-generation service (`api.py`).

The development shallowly embeds the pure core of the service:

* `parse_subtitles`   — the word/time transcript parser (api.py, ll. 150-170);
* `create_ass_file`   — the subtitle compiler, modelled as the list of
  dialogue events it writes (api.py, ll. 173-281);
* `format_time_ass`   — the ASS timestamp formatter (api.py, ll. 284-290);
* `build_video`       — the ffmpeg command / filter-graph compiler, modelled
  structurally (api.py, ll. 293-362);
* `save_job_status` and the job-status write sequence of
  `process_video_job` / `generate_video` (api.py, ll. 49-63, 365-398, 401-518).

Python floats are modelled as rationals (`ℚ`); the file-system status store
is modelled as a map from job id to record; the sequence of status writes a
job performs is modelled as an explicit trace.
-/

/-- A word cue: text plus start/end display time in seconds (`ℚ` models the
Python float).  The source stores these as dicts `{word, start, end}`;
`end` is a Lean keyword, hence the field name `stop`. -/
structure Cue where
  word : String
  start : ℚ
  stop : ℚ
deriving DecidableEq

/-- Split a character list at every occurrence of `c` (the separator is
dropped), mirroring Python `str.split` with an explicit one-character
separator: the empty list yields one empty field. -/
def splitOnChar (c : Char) : List Char → List (List Char)
  | [] => [[]]
  | x :: rest =>
    match splitOnChar c rest with
    | [] => [[x]]
    | h :: t => if x = c then [] :: h :: t else (x :: h) :: t

/-- Strip leading and trailing whitespace from a character list, the strip
Python `float` applies to its argument. -/
def trimChars (cs : List Char) : List Char :=
  ((cs.dropWhile Char.isWhitespace).reverse.dropWhile Char.isWhitespace).reverse

/-- Value of a digit string, most significant digit first. -/
def digitsVal (cs : List Char) : ℕ :=
  cs.foldl (fun a c => 10 * a + (c.toNat - 48)) 0

/-- Assemble a rational from sign, integer part, fractional part and the
number of fractional digits. -/
def ratOfParts (neg : Bool) (ip fp : ℕ) (fdigits : ℕ) : ℚ :=
  (if neg then -1 else 1) * ((ip : ℚ) + (fp : ℚ) / (10 : ℚ) ^ fdigits)

/-- Python `float(s)` restricted to plain decimal literals (optional sign,
digits, optional decimal point; surrounding whitespace stripped), the only
shapes the service's timing strings use.  Scientific notation, infinities
and digit underscores are outside this model.  `none` models the
`ValueError` Python raises on any other input. -/
def parseFloat (s : String) : Option ℚ :=
  let cs0 := trimChars s.data
  let signed : Bool × List Char :=
    match cs0 with
    | '-' :: rest => (true, rest)
    | '+' :: rest => (false, rest)
    | cs => (false, cs)
  match splitOnChar '.' signed.2 with
  | [ip] =>
      if ip ≠ [] ∧ ip.all (·.isDigit) then
        some (ratOfParts signed.1 (digitsVal ip) 0 0)
      else none
  | [ip, fp] =>
      if (ip ≠ [] ∨ fp ≠ []) ∧ ip.all (·.isDigit) ∧ fp.all (·.isDigit) then
        some (ratOfParts signed.1 (digitsVal ip) (digitsVal fp) fp.length)
      else none
  | _ => none

/-- The pairing loop of `parse_subtitles` (api.py, ll. 155-162): walk the
split tokens two at a time while a complete word/time pair remains; a
trailing unpaired token is dropped (`while i < len(parts) - 1`).  `none`
models the exception Python raises when a consumed time token is not a
float. -/
def parsePairs : List String → Option (List (String × ℚ))
  | w :: t :: rest =>
      match parseFloat t, parsePairs rest with
      | some tv, some tl => some ((w, tv) :: tl)
      | _, _ => none
  | _ => some []

/-- The end back-filling passes of `parse_subtitles` (api.py, ll. 164-168):
each cue's end is the next cue's start; the last cue's end is its start
plus 1.0.  (The source first initialises every end to 0.0 and then
overwrites it; the net effect is this function.) -/
def backfill : List (String × ℚ) → List Cue
  | [] => []
  | [(w, s)] => [⟨w, s, s + 1⟩]
  | (w, s) :: p :: rest => ⟨w, s, p.2⟩ :: backfill (p :: rest)

/-- The token list `subtitle_string.split('/')` works on
(api.py, l. 152). -/
def subtitleTokens (s : String) : List String :=
  (splitOnChar '/' s.data).map String.mk

/-- `parse_subtitles` (api.py, ll. 150-170): split on `/`, pair up
word/time tokens, back-fill end times. -/
def parse_subtitles (s : String) : Option (List Cue) :=
  (parsePairs (subtitleTokens s)).map backfill

/-- Python float `%` on non-negative operands: `a - b * floor (a / b)`. -/
def pythonMod (a b : ℚ) : ℚ := a - b * ⌊a / b⌋

/-- Zero-padded two-digit rendering, Python `f"{n:02d}"` for `n < 100`. -/
def pad2 (n : ℕ) : String :=
  if n < 10 then "0" ++ toString n else toString n

/-- `format_time_ass` (api.py, ll. 284-290): seconds to `H:MM:SS.CC`.
Python `int()` truncates toward zero; on the non-negative values the
service produces this is the floor, used here. -/
def format_time_ass (seconds : ℚ) : String :=
  let hours := (⌊seconds / 3600⌋).toNat
  let minutes := (⌊pythonMod seconds 3600 / 60⌋).toNat
  let secs := (⌊pythonMod seconds 60⌋).toNat
  let centisecs := (⌊pythonMod seconds 1 * 100⌋).toNat
  toString hours ++ ":" ++ pad2 minutes ++ ":" ++ pad2 secs ++ "." ++ pad2 centisecs

/-- One `Dialogue:` event line of the ASS file, in structured form:
`Dialogue: {layer},{startS},{endS},{styleName},,0,0,0,,{text}`. -/
structure DialogueLine where
  layer : ℕ
  startS : String
  endS : String
  styleName : String
  text : String
deriving DecidableEq

/-- Word transform of the grouped styles (api.py, ll. 233-237): styles
3, 4, 5 uppercase the word, style 6 keeps it as written. -/
def groupWord (cn : ℕ) (s : Cue) : String :=
  if cn = 3 ∨ cn = 4 ∨ cn = 5 then s.word.toUpper else s.word

/-- Emphasis markup of the currently spoken word in a 3-word window
(api.py, ll. 239-245), text layer.  Literal braces are written with the
escapes `\x7b` / `\x7d`. -/
def emphText (cn : ℕ) (colorE w : String) : String :=
  if cn = 3 ∨ cn = 4 then
    "\x7b\\blur10\\c" ++ colorE ++ "&\x7d" ++ w ++ "\x7b\\r\x7d"
  else if cn = 5 then
    "\x7b\\blur10\\t(0,50,\\fs110)\\c" ++ colorE ++ "&\x7d" ++ w ++ "\x7b\\r\x7d"
  else w

/-- Markup of the other words of a window (api.py, ll. 247-251), text
layer. -/
def plainText (cn : ℕ) (w : String) : String :=
  if cn = 3 ∨ cn = 4 ∨ cn = 5 then "\x7b\\blur10\x7d" ++ w else w

/-- Text of a window when word number `j` is current (api.py, ll. 230-253):
all words of the window joined by spaces, the `j`-th one emphasised. -/
def windowText (cn : ℕ) (colorE : String) (g : List Cue) (j : ℕ) : String :=
  String.intercalate " " (g.enum.map (fun p =>
    if p.1 = j then emphText cn colorE (groupWord cn p.2)
    else plainText cn (groupWord cn p.2)))

/-- Box-layer text of a style-6 window when word `j` is current
(api.py, ll. 245, 251, 254). -/
def windowBoxText (colorE : String) (g : List Cue) (j : ℕ) : String :=
  String.intercalate " " (g.enum.map (fun p =>
    if p.1 = j then
      "\x7b\\bord7\\3c" ++ colorE ++ "&\\3a&H00&\x7d" ++ p.2.word ++ "\x7b\\r\x7d"
    else p.2.word))

/-- Dialogue events one (already space-filtered) window contributes
(api.py, ll. 225-263): one event per word of the window; style 6 emits a
box-layer event immediately followed by the text-layer event, both with
the word's own start/end timestamps. -/
def windowLines (cn : ℕ) (colorE : String) (g : List Cue) : List DialogueLine :=
  g.enum.flatMap (fun p =>
    let ws := format_time_ass p.2.start
    let we := format_time_ass p.2.stop
    if cn = 6 then
      [⟨0, ws, we, "Box", "\x7b\\1a&HFF&\x7d" ++ windowBoxText colorE g p.1⟩,
       ⟨1, ws, we, "Default", windowText cn colorE g p.1⟩]
    else
      [⟨0, ws, we, "Default", windowText cn colorE g p.1⟩])

/-- The window slicing `subtitles[i:i+3]` of the grouped-style loop
(api.py, ll. 214-216, 265). -/
def chunk3 : List Cue → List (List Cue)
  | [] => []
  | [a] => [[a]]
  | [a, b] => [[a, b]]
  | a :: b :: c :: rest => [a, b, c] :: chunk3 rest

/-- Word decoration of the one-cue-at-a-time styles (api.py, ll. 267-273).
Styles other than 1, 2 and 7 never reach this branch (the source would
raise `NameError` there); the style-7 arm is used as the catch-all. -/
def simpleWord (cn : ℕ) (sub : Cue) : String :=
  if cn = 1 then sub.word.toUpper
  else if cn = 2 then "\x7b\\t(0,100,\\fs110)\x7d" ++ sub.word
  else "\x7b\\blur10\\t(0,100,\\fs110)\x7d" ++ sub.word.toUpper

/-- The `[Events]` dialogue lines `create_ass_file` writes
(api.py, ll. 213-281).  Grouped styles 3-6 slice the cues into 3-word
windows and drop cues whose word is a bare space before rendering; the
simple styles 1, 2, 7 decorate the word first and skip the line only when
the decorated word equals `" "`. -/
def dialogueEvents (cn : ℕ) (colorE : String) (subs : List Cue) : List DialogueLine :=
  if cn = 3 ∨ cn = 4 ∨ cn = 5 ∨ cn = 6 then
    (chunk3 subs).flatMap (fun g => windowLines cn colorE (g.filter (fun s => s.word != " ")))
  else
    subs.filterMap (fun sub =>
      let word := simpleWord cn sub
      if word = " " then none
      else some ⟨0, format_time_ass sub.start, format_time_ass sub.stop, "Default", word⟩)

/-- Alternating box/text pairing: the list is a sequence of pairs, each a
layer-0 `Box` line immediately followed by a layer-1 `Default` line with
the same start and end timestamps. -/
inductive PairedBoxText : List DialogueLine → Prop
  | nil : PairedBoxText []
  | cons (b t : DialogueLine) (rest : List DialogueLine) :
      b.layer = 0 → b.styleName = "Box" →
      t.layer = 1 → t.styleName = "Default" →
      b.startS = t.startS → b.endS = t.endS →
      PairedBoxText rest → PairedBoxText (b :: t :: rest)

/-- The four job states of the `JobStatus` enum (api.py, ll. 37-41). -/
inductive JobState
  | pending
  | processing
  | completed
  | failed
deriving DecidableEq

/-- The arguments of one `save_job_status` call: status, progress, error
text and artifact path (api.py, l. 49). -/
structure StatusWrite where
  status : JobState
  progress : ℤ
  error : Option String
  video_path : Option String
deriving DecidableEq

/-- Outcome of the background unit of work of `process_video_job`
(api.py, ll. 371-398): either every step succeeds, or an exception is
raised inside the `try` block after `k` status writes have already
happened (`k = 0`: before the first write; `k = 1`: during font staging;
`k = 2`: during `build_video`), carrying the exception text `msg`. -/
inductive RenderOutcome
  | ok
  | failAfter (k : ℕ) (msg : String)
deriving DecidableEq

/-- The sequence of `save_job_status` calls `process_video_job` performs
(api.py, ll. 371-398): PROCESSING at 10, PROCESSING at 20 after fonts,
COMPLETED at 100 with the artifact path on success; on an exception the
`except` arm writes FAILED with progress 0 and the exception text. -/
def process_video_job_writes (workDir : String) (o : RenderOutcome) : List StatusWrite :=
  match o with
  | .ok =>
      [⟨.processing, 10, none, none⟩,
       ⟨.processing, 20, none, none⟩,
       ⟨.completed, 100, none, some (workDir ++ "/final_video.mp4")⟩]
  | .failAfter k msg =>
      ([⟨.processing, 10, none, none⟩, ⟨.processing, 20, none, none⟩].take k)
        ++ [⟨.failed, 0, some msg, none⟩]

/-- The full write trace of one job: `generate_video` records PENDING with
progress 0 before scheduling the background task (api.py, l. 491),
followed by the background writes. -/
def jobTrace (workDir : String) (o : RenderOutcome) : List StatusWrite :=
  ⟨.pending, 0, none, none⟩ :: process_video_job_writes workDir o

/-- The job state machine as claimed: the first write is PENDING with
progress 0; the successful run ends COMPLETED at progress 100 with a
non-empty artifact path; no terminal (COMPLETED/FAILED) write is ever
followed by another write. -/
def JobTraceProp (workDir : String) (o : RenderOutcome) : Prop :=
  (jobTrace workDir o).head? = some ⟨.pending, 0, none, none⟩
  ∧ (jobTrace workDir .ok).getLast? =
      some ⟨.completed, 100, none, some (workDir ++ "/final_video.mp4")⟩
  ∧ workDir ++ "/final_video.mp4" ≠ ""
  ∧ ∀ w ∈ (jobTrace workDir o).dropLast, w.status ≠ .completed ∧ w.status ≠ .failed

/-- The persisted job record (api.py, ll. 51-59). -/
structure JobRecord where
  job_id : String
  status : JobState
  progress : ℤ
  created_at : ℕ
  updated_at : ℕ
  error : Option String
  video_path : Option String
deriving DecidableEq

/-- The durable status store: one record per job id (one JSON file per job
in the source). -/
abbrev JobStore := String → Option JobRecord

/-- `save_job_status` (api.py, ll. 49-63): builds a fresh record dict —
both timestamps are `datetime.now()` at the moment of the write, error and
video path are whatever was passed (`None` when omitted) — and overwrites
the job's file with it.  The two `now()` calls are modelled as one
instant. -/
def save_job_status (store : JobStore) (now : ℕ) (jobId : String)
    (status : JobState) (progress : ℤ)
    (error : Option String) (videoPath : Option String) : JobStore :=
  fun id =>
    if id = jobId then some ⟨jobId, status, progress, now, now, error, videoPath⟩
    else store id

/-- `BACKGROUND_MUSIC_MAP` (api.py, ll. 29-34). -/
def BACKGROUND_MUSIC_MAP : List (String × String) :=
  [("1", "tonight.mp3"), ("2", "stranger.mp3"),
   ("3", "i-was.mp3"), ("4", "suspense.mp3")]

/-- The synthesis loop of the start-time reconciliation (api.py,
ll. 486-489): append `k` further start times, each 3.0 seconds past the
previous one. -/
def extendTimes (ts : List ℚ) (lastT : ℚ) (k : ℕ) : List ℚ :=
  match k with
  | 0 => ts
  | k + 1 => extendTimes (ts ++ [lastT + 3]) (lastT + 3) k

/-- Start-time reconciliation (api.py, ll. 482-489): truncate excess start
times to the image count; synthesize missing ones at a 3-second stride
from the last known value (0 when none were supplied). -/
def reconcile (ts : List ℚ) (n : ℕ) : List ℚ :=
  if ts.length ≤ n then extendTimes ts (ts.getLastD 0) (n - ts.length)
  else ts.take n

/-- Result of a `/generate-video` submission: a rejected submission
(HTTP 400 with the exception text, no job record ever created, api.py,
ll. 515-518) or an accepted one, carrying the PENDING record written
before the background task is scheduled, the reconciled start times and
the resolved music path. -/
inductive SubmitOutcome
  | rejected (detail : String)
  | accepted (firstWrite : StatusWrite) (startTimes : List ℚ) (musicPath : Option String)
deriving DecidableEq

/-- The validation and staging sequence of `generate_video`
(api.py, ll. 447-513), in source order: reject when no image was uploaded;
resolve the music selector (`"0"` means none, unknown keys raise); parse
the start-time tokens as floats (the raw form string is modelled as its
whitespace/comma-split token list, and the resolved music file path as
`"BASE_DIR/" ++ filename`); reconcile the start times against the image
count; record PENDING with progress 0. -/
def generate_video_model (images : List String) (bm : String)
    (startTokens : List String) : SubmitOutcome :=
  if images.isEmpty then .rejected "Aucune image n\x27a été uploadée"
  else
    let music : Except String (Option String) :=
      if bm = "0" then .ok none
      else
        match BACKGROUND_MUSIC_MAP.lookup bm with
        | some f => .ok (some ("BASE_DIR/" ++ f))
        | none => .error "Numéro de musique invalide"
    match music with
    | .error e => .rejected e
    | .ok mp =>
        match startTokens.mapM parseFloat with
        | none => .rejected "could not convert string to float"
        | some ts => .accepted ⟨.pending, 0, none, none⟩ (reconcile ts images.length) mp

/-- The per-image display durations of `build_video` (api.py,
ll. 312-319): each slot lasts until the next slot's start; the last slot
lasts until the end of the narration audio. -/
def image_durations : List ℚ → ℚ → List ℚ
  | [], _ => []
  | [s], audioDur => [audioDur - s]
  | s :: s2 :: rest, audioDur => (s2 - s) :: image_durations (s2 :: rest) audioDur

/-- One positional `-i` input of the assembled ffmpeg command: image
inputs carry `-loop 1 -t <duration>` (api.py, l. 322), audio inputs do
not (api.py, ll. 324-327). -/
structure InputSpec where
  isImage : Bool
  trimDuration : Option ℚ
  path : String
deriving DecidableEq

/-- One stage of the `-filter_complex` graph of `build_video`
(api.py, ll. 329-349), in structured form; `scaleChain i anim` is the
`[i:v]scale=1080:1920:...,pad=...,format=yuv420p,<animation>` chain ending
in the label `[v i]`. -/
inductive FilterStage
  | scaleChain (inputIdx : ℕ) (width height : ℕ) (animChain : String)
  | concatStage (labels : List ℕ) (n : ℕ)
  | assOverlay (subFile fontsDir : String)
  | voiceVolume (inputIdx : ℕ) (vol : ℚ)
  | musicVolume (inputIdx : ℕ) (vol : ℚ)
  | amixStage (inputs : ℕ) (durationShortest : Bool)
  | audioSingle (inputIdx : ℕ) (vol : ℚ)
deriving DecidableEq

/-- Recogniser for per-image scale stages. -/
def FilterStage.isScaleChain : FilterStage → Bool
  | .scaleChain _ _ _ _ => true
  | _ => false

/-- Recogniser for the concat stage. -/
def FilterStage.isConcatStage : FilterStage → Bool
  | .concatStage _ _ => true
  | _ => false

/-- Recogniser for the audio stages (volume, mix, or plain passthrough). -/
def FilterStage.isAudioStage : FilterStage → Bool
  | .voiceVolume _ _ => true
  | .musicVolume _ _ => true
  | .amixStage _ _ => true
  | .audioSingle _ _ => true
  | _ => false

/-- The assembled render command: ordered positional inputs, filter graph
and fixed frame rate (api.py, ll. 309-360). -/
structure RenderCommand where
  inputs : List InputSpec
  filterGraph : List FilterStage
  fps : ℕ
deriving DecidableEq

/-- `build_video`'s command assembly (api.py, ll. 309-360), modelled
structurally: one looped image input per image with its display duration,
then the narration input, then — exactly when background music was
supplied — the music input; one scale/pad/animation chain per image, the
concat of all image labels in index order, the subtitle overlay, and the
audio stage(s): narration at volume 1.0, plus, with music, the music input
at volume 0.10 mixed with `duration=shortest`.  The animation fragment per
image is a parameter (`random.choice` in the source is unseeded
non-determinism, spec §4.3). -/
def build_video_cmd (images : List String) (audioPath : String)
    (startTimes : List ℚ) (audioDuration : ℚ) (musicPath : Option String)
    (anim : ℕ → String) (subFile fontsDir : String) : RenderCommand :=
  let durs := image_durations startTimes audioDuration
  { inputs :=
      (images.zip durs).map (fun p => ⟨true, some p.2, p.1⟩)
        ++ [⟨false, none, audioPath⟩]
        ++ (match musicPath with
            | some m => [⟨false, none, m⟩]
            | none => [])
    filterGraph :=
      (List.range images.length).map (fun i => .scaleChain i 1080 1920 (anim i))
        ++ [.concatStage (List.range images.length) images.length,
            .assOverlay subFile fontsDir]
        ++ (match musicPath with
            | some _ =>
                [.voiceVolume images.length 1,
                 .musicVolume (images.length + 1) (1/10),
                 .amixStage 2 true]
            | none => [.audioSingle images.length 1])
    fps := 60 }

/-- The shape claim C7 states about the compiled command for `n` images:
`n` image inputs, `n + 1 + (music ? 1 : 0)` positional inputs in total,
`n` scale stages, exactly one concat stage referencing labels
`0, …, n-1` in order with parameter `n`, and the audio stages as
described. -/
def RenderCmdShape (c : RenderCommand) (n : ℕ) (music : Bool) : Prop :=
  (c.inputs.filter (·.isImage)).length = n
  ∧ c.inputs.length = n + 1 + (if music then 1 else 0)
  ∧ ((c.filterGraph.filter (·.isScaleChain)).length = n)
  ∧ c.filterGraph.filter (·.isConcatStage) = [.concatStage (List.range n) n]
  ∧ c.filterGraph.filter (·.isAudioStage) =
      (if music then
        [.voiceVolume n 1, .musicVolume (n + 1) (1/10), .amixStage 2 true]
      else [.audioSingle n 1])

example : subtitleTokens "hi/0.0/there/0.5/friend/1.2" =
    ["hi", "0.0", "there", "0.5", "friend", "1.2"] := by decide
example : parseFloat "0.0" = some (ratOfParts false 0 0 1) := rfl
example : parseFloat "0.5" = some (ratOfParts false 0 5 1) := rfl
example : parseFloat "1.2" = some (ratOfParts false 1 2 1) := rfl

theorem parsePairs_length : ∀ (l : List String) (ps : List (String × ℚ)),
    parsePairs l = some ps → ps.length = l.length / 2
  | [], ps, h => by
      simp only [parsePairs, Option.some.injEq] at h
      subst h; rfl
  | [w], ps, h => by
      simp only [parsePairs, Option.some.injEq] at h
      subst h; simp
  | w :: t :: rest, ps, h => by
      simp only [parsePairs] at h
      cases hf : parseFloat t with
      | none => rw [hf] at h; simp at h
      | some tv =>
        cases hr : parsePairs rest with
        | none => rw [hf, hr] at h; simp at h
        | some tl =>
          rw [hf, hr] at h
          simp only [Option.some.injEq] at h
          subst h
          have ih := parsePairs_length rest tl hr
          simp only [List.length_cons, ih]
          omega

theorem backfill_length : ∀ (l : List (String × ℚ)), (backfill l).length = l.length
  | [] => rfl
  | [(_, _)] => rfl
  | (_, _) :: p :: rest => by
      simp only [backfill, List.length_cons, backfill_length (p :: rest)]

theorem backfill_get_start : ∀ (l : List (String × ℚ)) (i : ℕ) (h : i < l.length),
    ((backfill l).get ⟨i, by rw [backfill_length]; exact h⟩).start = (l.get ⟨i, h⟩).2
  | [(_, _)], 0, _ => rfl
  | (_, _) :: p :: rest, 0, _ => rfl
  | (_, _) :: p :: rest, i + 1, h => by
      simpa [backfill] using backfill_get_start (p :: rest) i (by simpa using h)

theorem backfill_chain : ∀ (l : List (String × ℚ)) (i : ℕ)
    (h : i + 1 < (backfill l).length),
    ((backfill l).get ⟨i, by omega⟩).stop = ((backfill l).get ⟨i + 1, h⟩).start
  | (_, _) :: p :: rest, 0, h => by
      have := backfill_get_start (p :: rest) 0 (by simp)
      simpa [backfill] using this.symm
  | (_, _) :: p :: rest, i + 1, h => by
      simpa [backfill] using backfill_chain (p :: rest) i (by simpa [backfill] using h)

theorem backfill_getLast : ∀ (l : List (String × ℚ)) (p : String × ℚ),
    l.getLast? = some p → (backfill l).getLast? = some ⟨p.1, p.2, p.2 + 1⟩
  | [(w, s)], p, h => by
      simp only [List.getLast?_singleton, Option.some.injEq] at h
      subst h; rfl
  | (w, s) :: q :: rest, p, h => by
      rw [List.getLast?_cons_cons] at h
      have ih := backfill_getLast (q :: rest) p h
      cases rest with
      | nil => simpa [backfill] using ih
      | cons r rs => simpa [backfill] using ih

theorem parse_subtitles_example : parse_subtitles "hi/0.0/there/0.5/friend/1.2" =
    some [⟨"hi", 0, 1/2⟩, ⟨"there", 1/2, 6/5⟩, ⟨"friend", 6/5, 11/5⟩] := by
  have hsplit : subtitleTokens "hi/0.0/there/0.5/friend/1.2" =
      ["hi", "0.0", "there", "0.5", "friend", "1.2"] := by decide
  have h1 : parseFloat "0.0" = some (ratOfParts false 0 0 1) := rfl
  have h2 : parseFloat "0.5" = some (ratOfParts false 0 5 1) := rfl
  have h3 : parseFloat "1.2" = some (ratOfParts false 1 2 1) := rfl
  rw [parse_subtitles, hsplit]
  simp only [parsePairs, h1, h2, h3, Option.map_some]
  norm_num [ratOfParts, backfill]

/-- Claim C1: for every transcript string on which the Timing Parser
succeeds, it produces one cue per complete word/time pair — a trailing
unpaired token is dropped, so an odd token count yields (count − 1) / 2
cues — after back-filling each cue's end equals the next cue's start, the
last cue's end is its start plus 1.0, and the input
`"hi/0.0/there/0.5/friend/1.2"` yields exactly the cues
`("hi", 0.0, 0.5)`, `("there", 0.5, 1.2)`, `("friend", 1.2, 2.2)`. -/
theorem claim_C1 (s : String) (cues : List Cue)
    (h : parse_subtitles s = some cues) :
    cues.length = (subtitleTokens s).length / 2
    ∧ ((subtitleTokens s).length % 2 = 1 →
        cues.length = ((subtitleTokens s).length - 1) / 2)
    ∧ (∀ (i : ℕ) (h1 : i + 1 < cues.length),
        (cues.get ⟨i, by omega⟩).stop = (cues.get ⟨i + 1, h1⟩).start)
    ∧ (∀ c, cues.getLast? = some c → c.stop = c.start + 1)
    ∧ parse_subtitles "hi/0.0/there/0.5/friend/1.2" =
        some [⟨"hi", 0, 1/2⟩, ⟨"there", 1/2, 6/5⟩, ⟨"friend", 6/5, 11/5⟩] := by
  rw [parse_subtitles] at h
  obtain ⟨ps, hps, rfl⟩ := Option.map_eq_some'.mp h
  have hlen := parsePairs_length _ _ hps
  refine ⟨?_, ?_, ?_, ?_, parse_subtitles_example⟩
  · rw [backfill_length, hlen]
  · intro hodd
    rw [backfill_length, hlen]
    omega
  · intro i h1
    exact backfill_chain ps i h1
  · intro c hc
    have hne : ps ≠ [] := by
      intro hnil
      subst hnil
      simp [backfill] at hc
    obtain ⟨p, hp⟩ := Option.ne_none_iff_exists'.mp
      (mt List.getLast?_eq_none_iff.mp hne)
    have := backfill_getLast ps p hp
    rw [this] at hc
    injection hc with hc
    subst hc
    rfl

/-- Witness for C1 at the spec's own example input. -/
theorem claim_C1_witness :
    ([⟨"hi", 0, 1/2⟩, ⟨"there", 1/2, 6/5⟩, ⟨"friend", 6/5, 11/5⟩] : List Cue).length
        = (subtitleTokens "hi/0.0/there/0.5/friend/1.2").length / 2
    ∧ ((subtitleTokens "hi/0.0/there/0.5/friend/1.2").length % 2 = 1 →
        ([⟨"hi", 0, 1/2⟩, ⟨"there", 1/2, 6/5⟩, ⟨"friend", 6/5, 11/5⟩] : List Cue).length
          = ((subtitleTokens "hi/0.0/there/0.5/friend/1.2").length - 1) / 2)
    ∧ (∀ (i : ℕ) (h1 : i + 1 <
          ([⟨"hi", 0, 1/2⟩, ⟨"there", 1/2, 6/5⟩, ⟨"friend", 6/5, 11/5⟩] : List Cue).length),
        (([⟨"hi", 0, 1/2⟩, ⟨"there", 1/2, 6/5⟩, ⟨"friend", 6/5, 11/5⟩] : List Cue).get
            ⟨i, by omega⟩).stop
          = (([⟨"hi", 0, 1/2⟩, ⟨"there", 1/2, 6/5⟩, ⟨"friend", 6/5, 11/5⟩] : List Cue).get
            ⟨i + 1, h1⟩).start)
    ∧ (∀ c, ([⟨"hi", 0, 1/2⟩, ⟨"there", 1/2, 6/5⟩, ⟨"friend", 6/5, 11/5⟩] : List Cue).getLast?
          = some c → c.stop = c.start + 1)
    ∧ parse_subtitles "hi/0.0/there/0.5/friend/1.2" =
        some [⟨"hi", 0, 1/2⟩, ⟨"there", 1/2, 6/5⟩, ⟨"friend", 6/5, 11/5⟩] :=
  claim_C1 "hi/0.0/there/0.5/friend/1.2" _ parse_subtitles_example

theorem pythonMod_nonneg (a b : ℚ) (hb : 0 < b) : 0 ≤ pythonMod a b := by
  rw [pythonMod, mul_comm]
  exact Int.sub_floor_div_mul_nonneg a hb

theorem pythonMod_lt (a b : ℚ) (hb : 0 < b) : pythonMod a b < b := by
  rw [pythonMod, mul_comm]
  exact Int.sub_floor_div_mul_lt a hb

theorem pythonMod_one (q : ℚ) : pythonMod q 1 = q - ⌊q⌋ := by
  simp [pythonMod]

/-- Claim C9: for every non-negative time, `format_time_ass` produces
`H:MM:SS.CC` — minutes and seconds below 60, centiseconds below 100 —
and the centisecond field is the fractional second truncated (floored,
not rounded) to two digits. -/
theorem claim_C9 (q : ℚ) (_hq : 0 ≤ q) :
    ∃ h m s c : ℕ, m < 60 ∧ s < 60 ∧ c < 100 ∧
      format_time_ass q =
        toString h ++ ":" ++ pad2 m ++ ":" ++ pad2 s ++ "." ++ pad2 c ∧
      (c : ℚ) ≤ (q - ⌊q⌋) * 100 ∧ (q - ⌊q⌋) * 100 < c + 1 := by
  refine ⟨(⌊q / 3600⌋).toNat, (⌊pythonMod q 3600 / 60⌋).toNat,
    (⌊pythonMod q 60⌋).toNat, (⌊pythonMod q 1 * 100⌋).toNat, ?_, ?_, ?_, rfl, ?_, ?_⟩
  · have hlt : pythonMod q 3600 / 60 < 60 := by
      have := pythonMod_lt q 3600 (by norm_num)
      rw [div_lt_iff₀ (by norm_num : (0:ℚ) < 60)]
      linarith
    have hfl : ⌊pythonMod q 3600 / 60⌋ < 60 := by
      exact_mod_cast Int.floor_lt.mpr (by exact_mod_cast hlt)
    omega
  · have hlt := pythonMod_lt q 60 (by norm_num)
    have hfl : ⌊pythonMod q 60⌋ < 60 := by
      exact_mod_cast Int.floor_lt.mpr (by exact_mod_cast hlt)
    omega
  · have hlt : pythonMod q 1 * 100 < 100 := by
      have := pythonMod_lt q 1 (by norm_num)
      nlinarith
    have hfl : ⌊pythonMod q 1 * 100⌋ < 100 := by
      exact_mod_cast Int.floor_lt.mpr (by exact_mod_cast hlt)
    omega
  · have h0 : 0 ≤ pythonMod q 1 * 100 := by
      have := pythonMod_nonneg q 1 (by norm_num)
      nlinarith
    have hfl0 : 0 ≤ ⌊pythonMod q 1 * 100⌋ := Int.floor_nonneg.mpr h0
    have hle := Int.floor_le (pythonMod q 1 * 100)
    rw [← pythonMod_one q]
    calc ((⌊pythonMod q 1 * 100⌋.toNat : ℕ) : ℚ)
        = ((⌊pythonMod q 1 * 100⌋ : ℤ) : ℚ) := by
          exact_mod_cast congrArg Int.cast (Int.toNat_of_nonneg hfl0)
      _ ≤ pythonMod q 1 * 100 := hle
  · have h0 : 0 ≤ pythonMod q 1 * 100 := by
      have := pythonMod_nonneg q 1 (by norm_num)
      nlinarith
    have hfl0 : 0 ≤ ⌊pythonMod q 1 * 100⌋ := Int.floor_nonneg.mpr h0
    have hlt := Int.lt_floor_add_one (pythonMod q 1 * 100)
    rw [← pythonMod_one q]
    have : ((⌊pythonMod q 1 * 100⌋.toNat : ℕ) : ℚ) = ((⌊pythonMod q 1 * 100⌋ : ℤ) : ℚ) := by
      exact_mod_cast congrArg Int.cast (Int.toNat_of_nonneg hfl0)
    rw [this]
    exact hlt

/-- Witness for C9 at 2.5 seconds. -/
theorem claim_C9_witness :
    (0:ℚ) ≤ 5/2 ∧
    ∃ h m s c : ℕ, m < 60 ∧ s < 60 ∧ c < 100 ∧
      format_time_ass (5/2) =
        toString h ++ ":" ++ pad2 m ++ ":" ++ pad2 s ++ "." ++ pad2 c ∧
      (c : ℚ) ≤ ((5:ℚ)/2 - ⌊(5:ℚ)/2⌋) * 100 ∧ ((5:ℚ)/2 - ⌊(5:ℚ)/2⌋) * 100 < c + 1 :=
  ⟨by norm_num, claim_C9 (5/2) (by norm_num)⟩

theorem format_zero : format_time_ass 0 = "0:00:00.00" := by
  simp only [format_time_ass, pythonMod]
  norm_num
  decide

theorem format_one : format_time_ass 1 = "0:00:01.00" := by
  simp only [format_time_ass, pythonMod]
  norm_num
  decide

/-- Claim C2 evaluated at the failing input: for caption style 2 a cue
whose word is exactly one space IS emitted as a dialogue line — the skip
check `if word == ' '` runs only after the animation tag has been
prepended to the word, so it never fires for styles 2 and 7. -/
theorem claim_C2_space_cue_emitted :
    dialogueEvents 2 "&H00FFFF&" [⟨" ", 0, 1⟩] =
      [⟨0, "0:00:00.00", "0:00:01.00", "Default", "\x7b\\t(0,100,\\fs110)\x7d "⟩] := by
  rw [dialogueEvents, if_neg (by norm_num)]
  simp only [List.filterMap, simpleWord, format_zero, format_one]
  norm_num
  decide

theorem pairedBoxText_append {xs ys : List DialogueLine}
    (hx : PairedBoxText xs) (hy : PairedBoxText ys) : PairedBoxText (xs ++ ys) := by
  induction hx with
  | nil => simpa
  | cons b t rest hb1 hb2 ht1 ht2 hs he _hrest ih =>
      exact .cons b t _ hb1 hb2 ht1 ht2 hs he ih

theorem pairedBoxText_windowLines (colorE : String) (g : List Cue) :
    PairedBoxText (windowLines 6 colorE g) := by
  rw [windowLines]
  generalize g.enum = l
  induction l with
  | nil => exact .nil
  | cons p l ih =>
      simp only [List.flatMap_cons]
      exact pairedBoxText_append (.cons _ _ [] rfl rfl rfl rfl rfl rfl .nil) ih

/-- Claim C8: for caption style 6, the emitted dialogue events come in
pairs — for each word of each window, a layer-0 `Box` line immediately
followed by the matching layer-1 `Default` line, both carrying identical
start and end timestamps. -/
theorem claim_C8 (colorE : String) (subs : List Cue) :
    PairedBoxText (dialogueEvents 6 colorE subs) := by
  rw [dialogueEvents, if_pos (by norm_num)]
  generalize chunk3 subs = gs
  induction gs with
  | nil => exact .nil
  | cons g gs ih =>
      simp only [List.flatMap_cons]
      exact pairedBoxText_append (pairedBoxText_windowLines colorE _) ih

/-- Witness for C8 on a concrete cue list. -/
theorem claim_C8_witness :
    PairedBoxText (dialogueEvents 6 "&H00FF00&" [⟨"hello", 0, 1⟩, ⟨"world", 1, 2⟩]) :=
  claim_C8 "&H00FF00&" [⟨"hello", 0, 1⟩, ⟨"world", 1, 2⟩]

/-- Claim C3: the job status trace follows
PENDING → PROCESSING → (COMPLETED | FAILED): the first write is PENDING at
progress 0 before any background work, the successful run ends COMPLETED
at progress 100 with a non-empty artifact path, and no write ever follows
a COMPLETED or FAILED write. -/
theorem claim_C3 (workDir : String) (o : RenderOutcome) : JobTraceProp workDir o := by
  refine ⟨rfl, rfl, ?_, ?_⟩
  · intro h
    have h2 := congrArg String.length h
    rw [String.length_append] at h2
    have h3 : ("/final_video.mp4").length = 16 := rfl
    have h4 : ("" : String).length = 0 := rfl
    omega
  · cases o with
    | ok =>
        intro w hw
        fin_cases hw <;> exact ⟨by decide, by decide⟩
    | failAfter k msg =>
        intro w hw
        have hre : jobTrace workDir (.failAfter k msg) =
            (⟨.pending, 0, none, none⟩ ::
              ([⟨.processing, 10, none, none⟩, ⟨.processing, 20, none, none⟩] :
                List StatusWrite).take k)
              ++ [⟨.failed, 0, some msg, none⟩] := by
          simp [jobTrace, process_video_job_writes]
        rw [hre, List.dropLast_concat] at hw
        rcases List.mem_cons.mp hw with rfl | hw2
        · exact ⟨by decide, by decide⟩
        · have := List.mem_of_mem_take hw2
          fin_cases this <;> exact ⟨by decide, by decide⟩

/-- Witness for C3: the successful run from a concrete working
directory. -/
theorem claim_C3_witness : JobTraceProp "temp_files/job42" .ok :=
  claim_C3 "temp_files/job42" .ok

/-- Claim C10: `save_job_status` replaces the whole record — the stored
record is fully determined by the write's arguments (both timestamps are
the write instant, unsupplied error/artifact fields are null), and is
independent of whatever the store previously held for that job. -/
theorem claim_C10 (store store' : JobStore) (now : ℕ) (jobId : String)
    (st : JobState) (p : ℤ) (err vp : Option String) :
    save_job_status store now jobId st p err vp jobId
        = some ⟨jobId, st, p, now, now, err, vp⟩
    ∧ save_job_status store now jobId st p err vp jobId
        = save_job_status store' now jobId st p err vp jobId
    ∧ save_job_status store now jobId st p none none jobId
        = some ⟨jobId, st, p, now, now, none, none⟩ := by
  refine ⟨?_, ?_, ?_⟩ <;> simp [save_job_status]

/-- Witness for C10: a concrete overwrite on a store that already holds an
older record for the same job. -/
theorem claim_C10_witness :
    save_job_status
        (fun _ => some ⟨"job", .pending, 0, 1, 1, none, none⟩) 7 "job"
        .completed 100 (some "boom") (some "out.mp4") "job"
      = some ⟨"job", .completed, 100, 7, 7, some "boom", some "out.mp4"⟩
    ∧ save_job_status
        (fun _ => some ⟨"job", .pending, 0, 1, 1, none, none⟩) 7 "job"
        .completed 100 (some "boom") (some "out.mp4") "job"
      = save_job_status (fun _ => none) 7 "job"
        .completed 100 (some "boom") (some "out.mp4") "job"
    ∧ save_job_status
        (fun _ => some ⟨"job", .pending, 0, 1, 1, none, none⟩) 7 "job"
        .completed 100 none none "job"
      = some ⟨"job", .completed, 100, 7, 7, none, none⟩ :=
  claim_C10 (fun _ => some ⟨"job", .pending, 0, 1, 1, none, none⟩)
    (fun _ => none) 7 "job" .completed 100 (some "boom") (some "out.mp4")

/-- Counterexample to claim C4 as stated: a submission whose music
selector is neither "0" nor a catalog key is rejected at submission time
(HTTP 400, before any job record is written) — no job exists, so no job is
ever FAILED by such a submission. -/
theorem claim_C4_counterexample :
    generate_video_model ["image_0.png"] "5" ["0"] =
      .rejected "Numéro de musique invalide" := rfl

/-- Claim C4 amended: a submission whose background-music selector is
neither "0" nor a known catalog key is rejected before any job record is
created, with the validation message as the HTTP 400 detail. -/
theorem claim_C4_amended (images : List String) (bm : String) (toks : List String)
    (h1 : images ≠ []) (h2 : bm ≠ "0")
    (h3 : BACKGROUND_MUSIC_MAP.lookup bm = none) :
    generate_video_model images bm toks =
      .rejected "Numéro de musique invalide" := by
  rw [generate_video_model,
    if_neg (by simp only [List.isEmpty_iff]; exact h1)]
  simp only [if_neg h2, h3]

/-- Witness for C4 at a concrete unknown selector. -/
theorem claim_C4_witness :
    generate_video_model ["a.png"] "9" [] =
      .rejected "Numéro de musique invalide" :=
  claim_C4_amended ["a.png"] "9" [] (by decide) (by decide) (by decide)

/-- Counterexample to claim C5 as stated: a real submission may carry
unordered start times — two images with start times `[5, 1]` are accepted
unchanged, and the first image's derived display duration is `1 - 5 = -4`,
which is negative. -/
theorem claim_C5_counterexample :
    generate_video_model ["a.png", "b.png"] "0" ["5", "1"] =
      .accepted ⟨.pending, 0, none, none⟩ [5, 1] none
    ∧ image_durations [5, 1] 10 = [-4, 9]
    ∧ ¬ (0:ℚ) ≤ -4 := by
  refine ⟨?_, ?_, by norm_num⟩
  · have h : generate_video_model ["a.png", "b.png"] "0" ["5", "1"] =
        .accepted ⟨.pending, 0, none, none⟩
          [ratOfParts false 5 0 0, ratOfParts false 1 0 0] none := rfl
    rw [h]
    norm_num [ratOfParts, SubmitOutcome.accepted.injEq]
  · norm_num [image_durations]

/-- Claim C5 amended: when the supplied start times are non-decreasing and
the last of them (0 when none) does not exceed the audio duration, every
derived display duration is non-negative. -/
theorem claim_C5_amended : ∀ (sts : List ℚ) (audioDur : ℚ),
    sts.Chain' (· ≤ ·) → sts.getLastD 0 ≤ audioDur →
    ∀ d ∈ image_durations sts audioDur, 0 ≤ d
  | [], _, _, _ => by simp [image_durations]
  | [s], audioDur, _, hlast => by
      intro d hd
      simp only [image_durations, List.mem_singleton] at hd
      subst hd
      rw [List.getLastD_cons] at hlast
      simp only [List.getLastD] at hlast
      linarith
  | s :: s2 :: rest, audioDur, hmono, hlast => by
      intro d hd
      simp only [image_durations, List.mem_cons] at hd
      rcases hd with rfl | hd
      · have hle := (List.chain'_cons.mp hmono).1
        linarith
      · refine claim_C5_amended (s2 :: rest) audioDur
          (List.chain'_cons.mp hmono).2 ?_ d hd
        rw [List.getLastD_cons] at hlast ⊢
        rwa [List.getLastD_cons] at hlast

/-- Witness for C5 (amended): with ordered start times [0, 2] and audio
duration 5, the first derived duration 2 - 0 is non-negative. -/
theorem claim_C5_witness : (0:ℚ) ≤ 2 - 0 :=
  claim_C5_amended [0, 2] 5
    (by norm_num [List.chain'_cons, List.chain'_singleton])
    (by norm_num [List.getLastD_cons, List.getLastD])
    (2 - 0) (by norm_num [image_durations])

theorem extendTimes_eq : ∀ (k : ℕ) (ts : List ℚ) (lastT : ℚ),
    extendTimes ts lastT k =
      ts ++ (List.range k).map (fun i : ℕ => lastT + 3 * ((i : ℚ) + 1))
  | 0, ts, lastT => by simp [extendTimes]
  | k + 1, ts, lastT => by
      rw [extendTimes, extendTimes_eq k]
      rw [List.range_succ_eq_map]
      simp only [List.map_cons, List.map_map, List.append_assoc,
        List.singleton_append, Nat.cast_zero]
      congr 1
      congr 1
      · norm_num
      · refine List.map_congr_left (fun i _ => ?_)
        simp only [Function.comp_apply]
        push_cast
        ring

theorem extendTimes_length (k : ℕ) (ts : List ℚ) (lastT : ℚ) :
    (extendTimes ts lastT k).length = ts.length + k := by
  simp [extendTimes_eq]

/-- Claim C6: start-time reconciliation always yields exactly one start
time per image — excess supplied times are truncated, missing ones are
synthesized by repeatedly adding 3.0 seconds past the last known value
(0 when none were supplied) — and 5 images with start times [0, 1, 2]
yield [0, 1, 2, 5, 8]. -/
theorem claim_C6 (ts : List ℚ) (n : ℕ) :
    (reconcile ts n).length = n
    ∧ reconcile ts n =
        (if ts.length ≤ n then
          ts ++ (List.range (n - ts.length)).map
            (fun k : ℕ => ts.getLastD 0 + 3 * ((k : ℚ) + 1))
        else ts.take n)
    ∧ reconcile [0, 1, 2] 5 = [0, 1, 2, 5, 8] := by
  refine ⟨?_, ?_, ?_⟩
  · rw [reconcile]
    split
    · rw [extendTimes_length]
      omega
    · simp only [List.length_take]
      omega
  · rw [reconcile]
    split
    · exact extendTimes_eq _ _ _
    · rfl
  · have h : reconcile [0, 1, 2] 5 = [0, 1, 2, (2:ℚ) + 3, (2:ℚ) + 3 + 3] := rfl
    rw [h]
    norm_num

/-- Witness for C6: the spec's own reconciliation example. -/
theorem claim_C6_witness : reconcile [0, 1, 2] 5 = [0, 1, 2, 5, 8] :=
  (claim_C6 [0, 1, 2] 5).2.2

theorem image_durations_length : ∀ (l : List ℚ) (a : ℚ),
    (image_durations l a).length = l.length
  | [], _ => rfl
  | [_], _ => rfl
  | s :: s2 :: rest, a => by
      simp [image_durations, image_durations_length (s2 :: rest) a]

/-- Claim C7: for `n` images the compiled command has exactly `n`
positional image inputs plus one narration input plus one music input
exactly when music is supplied; the filter graph has exactly `n` per-image
scale stages, one concat stage referencing the `n` image labels in index
order, and an audio stage referencing one input (narration at volume 1.0)
or two (narration plus music at volume 0.10, mixed with
`duration=shortest`). -/
theorem claim_C7 (images : List String) (audioPath : String) (sts : List ℚ)
    (audioDur : ℚ) (musicPath : Option String) (anim : ℕ → String)
    (subFile fontsDir : String) (hlen : sts.length = images.length) :
    RenderCmdShape
      (build_video_cmd images audioPath sts audioDur musicPath anim subFile fontsDir)
      images.length musicPath.isSome := by
  have hz : (images.zip (image_durations sts audioDur)).length = images.length := by
    rw [List.length_zip, image_durations_length, hlen, min_self]
  unfold RenderCmdShape build_video_cmd
  cases musicPath with
  | none =>
      refine ⟨?_, ?_, ?_, ?_, ?_⟩ <;>
        simp [List.filter_append, List.filter_map, Function.comp_def,
          FilterStage.isScaleChain, FilterStage.isConcatStage,
          FilterStage.isAudioStage, InputSpec.isImage, hz,
          List.filter_eq_self]
  | some m =>
      refine ⟨?_, ?_, ?_, ?_, ?_⟩ <;>
        simp [List.filter_append, List.filter_map, Function.comp_def,
          FilterStage.isScaleChain, FilterStage.isConcatStage,
          FilterStage.isAudioStage, InputSpec.isImage, hz,
          List.filter_eq_self]

/-- Witness for C7: two images with background music. -/
theorem claim_C7_witness :
    RenderCmdShape
      (build_video_cmd ["a.png", "b.png"] "voice.mp3" [0, 3] 9
        (some "music.mp3") (fun _ => "zoom") "subs.ass" "fonts")
      2 true :=
  claim_C7 ["a.png", "b.png"] "voice.mp3" [0, 3] 9 (some "music.mp3")
    (fun _ => "zoom") "subs.ass" "fonts" rfl
